import Mathlib

/-!
Shallow embedding of the statistics-consistency subsystem of the skillcy
repository: the `profiles`/`courses`/`user_courses` tables, the SQL function
`update_profile_stats`, the row-level trigger functions
`trigger_update_profile_stats` and `trigger_update_upload_stats`
(migration 20250627050526), and the client-side mutations
(`updateProfile`, `toggleCourseCompletion`, `handleMarkCompleted`,
enrollment insert/delete).

UUIDs are modelled as `Nat`, timestamps as `Nat`, SQL `INTEGER` as `Int`.
Tables are lists of rows; an SQL `UPDATE ... WHERE` is a `List.map` guarded
by the predicate, a `DELETE ... WHERE` is a `List.filter`, and the row-level
`AFTER` triggers fire on the state after the raw mutation, exactly as in the
migration.
-/

/-- A row of `public.profiles` (tables from the 20250626 base migration plus
the counter columns added by migration 20250627050526, each `DEFAULT 0`). -/
structure ProfileRow where
  user_id : Nat
  full_name : Option String
  avatar_url : Option String
  role : String
  completed : Int
  enrolled : Int
  uploads : Int
  created_at : Nat
  updated_at : Nat
deriving DecidableEq, Repr

/-- A row of `public.courses` (after migration 20250627050526 dropped
`category_id` and added `uploader_email`). -/
structure CourseRow where
  id : Nat
  title : String
  description : Option String
  content_type : String
  content_url : Option String
  content_text : Option String
  uploader_id : Nat
  access_type : String
  difficulty : Option String
  tags : List String
  image_url : Option String
  uploader_email : Option String
  is_approved : Bool
  created_at : Nat
  updated_at : Nat
deriving DecidableEq, Repr

/-- A row of `public.user_courses` (after migration 20250627050526 dropped
`progress` and added `completed`/`completed_at`). -/
structure UserCourseRow where
  id : Nat
  user_id : Nat
  course_id : Nat
  completed : Bool
  completed_at : Option Nat
  added_at : Nat
deriving DecidableEq, Repr

/-- The visible database state: the three tables the subsystem touches. -/
@[ext]
structure DBState where
  profiles : List ProfileRow
  courses : List CourseRow
  user_courses : List UserCourseRow
deriving DecidableEq, Repr

/-- `SELECT COUNT(*) FROM user_courses WHERE user_id = u AND completed = TRUE`. -/
def countCompleted (ucs : List UserCourseRow) (u : Nat) : Int :=
  ((ucs.filter (fun r => r.user_id == u && r.completed)).length : Int)

/-- `SELECT COUNT(*) FROM user_courses WHERE user_id = u`. -/
def countEnrolled (ucs : List UserCourseRow) (u : Nat) : Int :=
  ((ucs.filter (fun r => r.user_id == u)).length : Int)

/-- `SELECT COUNT(*) FROM courses WHERE uploader_id = u`. -/
def countUploads (cs : List CourseRow) (u : Nat) : Int :=
  ((cs.filter (fun r => r.uploader_id == u)).length : Int)

/-- SQL function `update_profile_stats(user_uuid UUID)`: one `UPDATE` on
`profiles` setting the three counters to their defining counts, with
`WHERE user_id = user_uuid`. -/
def update_profile_stats (user_uuid : Nat) (s : DBState) : DBState :=
  { s with profiles := s.profiles.map (fun p =>
      if p.user_id == user_uuid then
        { p with
          completed := countCompleted s.user_courses user_uuid
          enrolled := countEnrolled s.user_courses user_uuid
          uploads := countUploads s.courses user_uuid }
      else p) }

/-- The trigger-level operation tag `TG_OP`. -/
inductive TgOp where
  | ins
  | upd
  | del
deriving DecidableEq, Repr

/-- Trigger function `trigger_update_profile_stats()` on `user_courses`:
`IF TG_OP = INSERT OR TG_OP = UPDATE THEN PERFORM update_profile_stats(NEW.user_id)`;
`IF TG_OP = DELETE THEN PERFORM update_profile_stats(OLD.user_id)`. -/
def trigger_update_profile_stats (op : TgOp) (oldRow newRow : Option UserCourseRow)
    (s : DBState) : DBState :=
  let s1 := if op == TgOp.ins || op == TgOp.upd then
      match newRow with
      | some n => update_profile_stats n.user_id s
      | none => s
    else s
  if op == TgOp.del then
    match oldRow with
    | some o => update_profile_stats o.user_id s1
    | none => s1
  else s1

/-- Trigger function `trigger_update_upload_stats()` on `courses`: as above
but keyed to `NEW.uploader_id` / `OLD.uploader_id`. -/
def trigger_update_upload_stats (op : TgOp) (oldRow newRow : Option CourseRow)
    (s : DBState) : DBState :=
  let s1 := if op == TgOp.ins || op == TgOp.upd then
      match newRow with
      | some n => update_profile_stats n.uploader_id s
      | none => s
    else s
  if op == TgOp.del then
    match oldRow with
    | some o => update_profile_stats o.uploader_id s1
    | none => s1
  else s1

/-- Raw `INSERT INTO user_courses`, before the trigger fires. -/
def raw_insert_user_course (r : UserCourseRow) (s : DBState) : DBState :=
  { s with user_courses := s.user_courses ++ [r] }

/-- `INSERT INTO user_courses` followed by the `AFTER INSERT` trigger
`trigger_user_courses_stats` (OLD is null, NEW is the inserted row). -/
def insert_user_course (r : UserCourseRow) (s : DBState) : DBState :=
  trigger_update_profile_stats TgOp.ins none (some r) (raw_insert_user_course r s)

/-- Raw `UPDATE user_courses SET ... WHERE pred`, before the trigger fires. -/
def raw_update_user_course (pred : UserCourseRow → Bool)
    (f : UserCourseRow → UserCourseRow) (s : DBState) : DBState :=
  { s with user_courses := s.user_courses.map (fun r => if pred r then f r else r) }

/-- `UPDATE user_courses ... WHERE pred` followed by the `AFTER UPDATE`
trigger (fired with the OLD and NEW images of the affected row; all client
updates select a single row by primary key). When no row matches, no trigger
fires. -/
def update_user_course_where (pred : UserCourseRow → Bool)
    (f : UserCourseRow → UserCourseRow) (s : DBState) : DBState :=
  match s.user_courses.find? pred with
  | none => raw_update_user_course pred f s
  | some old =>
      trigger_update_profile_stats TgOp.upd (some old) (some (f old))
        (raw_update_user_course pred f s)

/-- `UPDATE user_courses ... WHERE id = rid` (primary-key update). -/
def update_user_course (rid : Nat) (f : UserCourseRow → UserCourseRow)
    (s : DBState) : DBState :=
  update_user_course_where (fun r => r.id == rid) f s

/-- Raw `DELETE FROM user_courses WHERE pred`, before the trigger fires. -/
def raw_delete_user_course (pred : UserCourseRow → Bool) (s : DBState) : DBState :=
  { s with user_courses := s.user_courses.filter (fun r => !(pred r)) }

/-- `DELETE FROM user_courses WHERE pred` followed by the `AFTER DELETE`
trigger (NEW is null, OLD is the deleted row). -/
def delete_user_course_where (pred : UserCourseRow → Bool) (s : DBState) : DBState :=
  match s.user_courses.find? pred with
  | none => raw_delete_user_course pred s
  | some old =>
      trigger_update_profile_stats TgOp.del (some old) none
        (raw_delete_user_course pred s)

/-- `DELETE FROM user_courses WHERE id = rid`. -/
def delete_user_course (rid : Nat) (s : DBState) : DBState :=
  delete_user_course_where (fun r => r.id == rid) s

/-- Raw `INSERT INTO courses`, before the trigger fires. -/
def raw_insert_course (c : CourseRow) (s : DBState) : DBState :=
  { s with courses := s.courses ++ [c] }

/-- `INSERT INTO courses` followed by the `AFTER INSERT` trigger
`trigger_courses_upload_stats`. -/
def insert_course (c : CourseRow) (s : DBState) : DBState :=
  trigger_update_upload_stats TgOp.ins none (some c) (raw_insert_course c s)

/-- Raw `UPDATE courses SET ... WHERE id = cid`, before the trigger fires. -/
def raw_update_course (cid : Nat) (f : CourseRow → CourseRow) (s : DBState) : DBState :=
  { s with courses := s.courses.map (fun c => if c.id == cid then f c else c) }

/-- `UPDATE courses ... WHERE id = cid` followed by the `AFTER UPDATE` trigger. -/
def update_course (cid : Nat) (f : CourseRow → CourseRow) (s : DBState) : DBState :=
  match s.courses.find? (fun c => c.id == cid) with
  | none => raw_update_course cid f s
  | some old =>
      trigger_update_upload_stats TgOp.upd (some old) (some (f old))
        (raw_update_course cid f s)

/-- Raw `DELETE FROM courses WHERE id = cid`, before the trigger fires. -/
def raw_delete_course (cid : Nat) (s : DBState) : DBState :=
  { s with courses := s.courses.filter (fun c => !(c.id == cid)) }

/-- `DELETE FROM courses WHERE id = cid` followed by the `AFTER DELETE` trigger. -/
def delete_course (cid : Nat) (s : DBState) : DBState :=
  match s.courses.find? (fun c => c.id == cid) with
  | none => raw_delete_course cid s
  | some old =>
      trigger_update_upload_stats TgOp.del (some old) none (raw_delete_course cid s)

/-- `user_courses.course_id UUID REFERENCES public.courses NOT NULL` declares
no `ON DELETE` action, so the default `NO ACTION` applies: deleting a course
that still has dependent enrollment rows is rejected and the transaction rolls
back (`none` = rejection, nothing changes). -/
def delete_course_checked (cid : Nat) (s : DBState) : Option DBState :=
  if s.user_courses.any (fun r => r.course_id == cid) then none
  else some (delete_course cid s)

/-- Trigger function `handle_new_user()`: `INSERT INTO profiles (user_id,
full_name) VALUES (new.id, ...)`; every other column takes its schema
default (`role` = user, counters = 0, timestamps = now()). -/
def handle_new_user (uid : Nat) (fullName : Option String) (now : Nat)
    (s : DBState) : DBState :=
  { s with profiles := s.profiles ++
      [{ user_id := uid, full_name := fullName, avatar_url := none,
         role := "user", completed := 0, enrolled := 0, uploads := 0,
         created_at := now, updated_at := now }] }

/-- Client `updateProfile` (Profile page): `UPDATE profiles SET full_name,
avatar_url, updated_at WHERE user_id = uid`, the avatar URL being derived
from the seed string. No trigger is attached to `profiles`. -/
def updateProfile (uid : Nat) (fullName : String) (avatarSeed : String)
    (now : Nat) (s : DBState) : DBState :=
  let avatarUrl := "https://api.dicebear.com/7.x/avataaars/svg?seed=" ++ avatarSeed
  { s with profiles := s.profiles.map (fun p =>
      if p.user_id == uid then
        { p with full_name := some fullName, avatar_url := some avatarUrl,
                 updated_at := now }
      else p) }

/-- Client `toggleCourseCompletion` (Library page): `UPDATE user_courses SET
completed = !currentStatus, completed_at = (!currentStatus ? now : null)
WHERE id = userCourseId AND user_id = uid`. -/
def toggleCourseCompletion (userCourseId : Nat) (currentStatus : Bool)
    (uid : Nat) (now : Nat) (s : DBState) : DBState :=
  update_user_course_where (fun r => r.id == userCourseId && r.user_id == uid)
    (fun r => { r with completed := !currentStatus,
                       completed_at := if !currentStatus then some now else none }) s

/-- Client `handleMarkCompleted` (course-detail page): same `SET` clause but
filtered by `id` only. -/
def handleMarkCompleted (userCourseId : Nat) (completed : Bool) (now : Nat)
    (s : DBState) : DBState :=
  update_user_course userCourseId
    (fun r => { r with completed := !completed,
                       completed_at := if !completed then some now else none }) s

/-- The row-level mutations the repository performs, as one operation type. -/
inductive Op where
  | newUser (uid : Nat) (fullName : Option String) (now : Nat)
  | insUC (r : UserCourseRow)
  | updUC (rid : Nat) (f : UserCourseRow → UserCourseRow)
  | delUC (rid : Nat)
  | insCourse (c : CourseRow)
  | updCourse (cid : Nat) (f : CourseRow → CourseRow)
  | delCourse (cid : Nat)
  | recompute (uid : Nat)
  | editProfile (uid : Nat) (fullName seed : String) (now : Nat)
  | toggle (rid : Nat) (cur : Bool) (uid : Nat) (now : Nat)
  | markCompleted (rid : Nat) (cur : Bool) (now : Nat)

/-- Interpreter for a single operation. -/
def applyOp (s : DBState) : Op → DBState
  | Op.newUser uid n t => handle_new_user uid n t s
  | Op.insUC r => insert_user_course r s
  | Op.updUC rid f => update_user_course rid f s
  | Op.delUC rid => delete_user_course rid s
  | Op.insCourse c => insert_course c s
  | Op.updCourse cid f => update_course cid f s
  | Op.delCourse cid => delete_course cid s
  | Op.recompute uid => update_profile_stats uid s
  | Op.editProfile uid n seed t => updateProfile uid n seed t s
  | Op.toggle rid cur uid t => toggleCourseCompletion rid cur uid t s
  | Op.markCompleted rid cur t => handleMarkCompleted rid cur t s

/-- Run a sequence of operations. -/
def applyOps (s : DBState) : List Op → DBState
  | [] => s
  | op :: rest => applyOps (applyOp s op) rest

/-- The empty database. -/
def dbEmpty : DBState := { profiles := [], courses := [], user_courses := [] }

/-- The central invariant: every profile's three counters equal their
defining counts over the live tables. -/
def statsInvariant (s : DBState) : Prop :=
  ∀ p ∈ s.profiles,
    p.completed = countCompleted s.user_courses p.user_id ∧
    p.enrolled = countEnrolled s.user_courses p.user_id ∧
    p.uploads = countUploads s.courses p.user_id

instance (s : DBState) : Decidable (statsInvariant s) := by
  unfold statsInvariant; infer_instance

/-! ### Basic frame lemmas for `update_profile_stats` -/

lemma ups_courses (u : Nat) (s : DBState) :
    (update_profile_stats u s).courses = s.courses := rfl

lemma ups_user_courses (u : Nat) (s : DBState) :
    (update_profile_stats u s).user_courses = s.user_courses := rfl

/-- The row transformer applied by `update_profile_stats`. -/
def upsRow (user_uuid : Nat) (ucs : List UserCourseRow) (cs : List CourseRow)
    (p : ProfileRow) : ProfileRow :=
  if p.user_id == user_uuid then
    { p with
      completed := countCompleted ucs user_uuid
      enrolled := countEnrolled ucs user_uuid
      uploads := countUploads cs user_uuid }
  else p

lemma ups_profiles (u : Nat) (s : DBState) :
    (update_profile_stats u s).profiles =
      s.profiles.map (upsRow u s.user_courses s.courses) := rfl

lemma upsRow_user_id (u : Nat) (ucs : List UserCourseRow) (cs : List CourseRow)
    (p : ProfileRow) : (upsRow u ucs cs p).user_id = p.user_id := by
  unfold upsRow; split <;> rfl

lemma upsRow_of_ne (u : Nat) (ucs : List UserCourseRow) (cs : List CourseRow)
    (p : ProfileRow) (h : p.user_id ≠ u) : upsRow u ucs cs p = p := by
  unfold upsRow
  simp [beq_iff_eq, h]

lemma upsRow_of_eq (u : Nat) (ucs : List UserCourseRow) (cs : List CourseRow)
    (p : ProfileRow) (h : p.user_id = u) :
    upsRow u ucs cs p =
      { p with
        completed := countCompleted ucs u
        enrolled := countEnrolled ucs u
        uploads := countUploads cs u } := by
  unfold upsRow
  simp [beq_iff_eq, h]

lemma list_map_id_of_forall {α : Type} (l : List α) (f : α → α)
    (h : ∀ x ∈ l, f x = x) : l.map f = l := by
  induction l with
  | nil => rfl
  | cons a t ih =>
      simp only [List.map_cons]
      rw [h a (by simp), ih (fun x hx => h x (by simp [hx]))]

/-- C6 theorem. If a user identity owns no `profiles` row, then
`update_profile_stats` for that identity is a silent no-op: it leaves the
whole database state unchanged (and in particular affects zero rows and
raises no error — the function is total). -/
theorem update_profile_stats_missing_profile_noop (u : Nat) (s : DBState)
    (h : ∀ p ∈ s.profiles, p.user_id ≠ u) :
    update_profile_stats u s = s := by
  have hmap : s.profiles.map (upsRow u s.user_courses s.courses) = s.profiles := by
    apply list_map_id_of_forall
    intro p hp
    exact upsRow_of_ne _ _ _ _ (h p hp)
  unfold update_profile_stats
  rw [show s.profiles.map (fun p =>
      if p.user_id == u then
        { p with
          completed := countCompleted s.user_courses u
          enrolled := countEnrolled s.user_courses u
          uploads := countUploads s.courses u }
      else p) = s.profiles.map (upsRow u s.user_courses s.courses) from rfl, hmap]

/-- Concrete witness state for C6: a single profile owned by user 2. -/
def dbC6 : DBState :=
  { profiles := [{ user_id := 2, full_name := none, avatar_url := none,
                   role := "user", completed := 0, enrolled := 0, uploads := 0,
                   created_at := 0, updated_at := 0 }],
    courses := [], user_courses := [] }

/-- C6 witness: user 1 has no profile in `dbC6`, and the recompute for
user 1 leaves `dbC6` unchanged. -/
theorem update_profile_stats_missing_profile_noop_witness :
    (∀ p ∈ dbC6.profiles, p.user_id ≠ 1) ∧ update_profile_stats 1 dbC6 = dbC6 :=
  ⟨by decide, update_profile_stats_missing_profile_noop 1 dbC6 (by decide)⟩

/-- C9 theorem. Frame of `update_profile_stats(userId)`: the `courses` and
`user_courses` tables are untouched, and row-for-row the `profiles` table
keeps `user_id`, `full_name`, `avatar_url`, `role`, `created_at` and
`updated_at`; a row whose `user_id` differs from `userId` is entirely
unchanged (only the three counters of the matching row may change). -/
theorem update_profile_stats_frame (u : Nat) (s : DBState) :
    (update_profile_stats u s).courses = s.courses ∧
    (update_profile_stats u s).user_courses = s.user_courses ∧
    List.Forall₂ (fun (p q : ProfileRow) =>
      q.user_id = p.user_id ∧ q.full_name = p.full_name ∧
      q.avatar_url = p.avatar_url ∧ q.role = p.role ∧
      q.created_at = p.created_at ∧ q.updated_at = p.updated_at ∧
      (p.user_id ≠ u → q = p))
      s.profiles (update_profile_stats u s).profiles := by
  refine ⟨rfl, rfl, ?_⟩
  rw [ups_profiles, List.forall₂_map_right_iff, List.forall₂_same]
  intro p _
  by_cases h : p.user_id = u
  · rw [upsRow_of_eq _ _ _ _ h]
    exact ⟨rfl, rfl, rfl, rfl, rfl, rfl, fun hne => absurd h hne⟩
  · rw [upsRow_of_ne _ _ _ _ h]
    exact ⟨rfl, rfl, rfl, rfl, rfl, rfl, fun _ => rfl⟩

/-- C10 theorem. Frame of the client profile edit `updateProfile`: the
`courses` and `user_courses` tables are untouched, and row-for-row the
`profiles` table keeps `user_id`, `role`, the three counters
(`completed`, `enrolled`, `uploads`) and `created_at`; a row whose
`user_id` differs from the caller is entirely unchanged. -/
theorem updateProfile_frame (uid : Nat) (fullName avatarSeed : String)
    (now : Nat) (s : DBState) :
    (updateProfile uid fullName avatarSeed now s).courses = s.courses ∧
    (updateProfile uid fullName avatarSeed now s).user_courses = s.user_courses ∧
    List.Forall₂ (fun (p q : ProfileRow) =>
      q.user_id = p.user_id ∧ q.role = p.role ∧
      q.completed = p.completed ∧ q.enrolled = p.enrolled ∧
      q.uploads = p.uploads ∧ q.created_at = p.created_at ∧
      (p.user_id ≠ uid → q = p))
      s.profiles (updateProfile uid fullName avatarSeed now s).profiles := by
  refine ⟨rfl, rfl, ?_⟩
  simp only [updateProfile]
  rw [List.forall₂_map_right_iff, List.forall₂_same]
  intro p _
  by_cases h : p.user_id = uid <;> simp [beq_iff_eq, h]

/-- C2 theorem. Trigger dispatch: every row-level mutation ends in a call of
`update_profile_stats` keyed as the migration writes it — inserts and updates
pass the NEW row's `user_id` (resp. `uploader_id`), deletes pass the OLD
row's; the call acts on the state after the raw mutation (`AFTER` trigger). -/
theorem trigger_dispatch (s : DBState) (r : UserCourseRow) (c : CourseRow)
    (rid cid : Nat) (f : UserCourseRow → UserCourseRow) (g : CourseRow → CourseRow)
    (oldU : UserCourseRow) (oldC : CourseRow)
    (hU : s.user_courses.find? (fun x => x.id == rid) = some oldU)
    (hC : s.courses.find? (fun x => x.id == cid) = some oldC) :
    insert_user_course r s
      = update_profile_stats r.user_id (raw_insert_user_course r s) ∧
    update_user_course rid f s
      = update_profile_stats (f oldU).user_id
          (raw_update_user_course (fun x => x.id == rid) f s) ∧
    delete_user_course rid s
      = update_profile_stats oldU.user_id
          (raw_delete_user_course (fun x => x.id == rid) s) ∧
    insert_course c s
      = update_profile_stats c.uploader_id (raw_insert_course c s) ∧
    update_course cid g s
      = update_profile_stats (g oldC).uploader_id (raw_update_course cid g s) ∧
    delete_course cid s
      = update_profile_stats oldC.uploader_id (raw_delete_course cid s) := by
  refine ⟨rfl, ?_, ?_, rfl, ?_, ?_⟩
  · unfold update_user_course update_user_course_where
    rw [hU]
    rfl
  · unfold delete_user_course delete_user_course_where
    rw [hU]
    rfl
  · unfold update_course
    rw [hC]
    rfl
  · unfold delete_course
    rw [hC]
    rfl


/-- Concrete witness state for C2: one profile, one course (id 20), one
enrollment (id 10). -/
def dbC2 : DBState :=
  { profiles := [{ user_id := 1, full_name := none, avatar_url := none,
                   role := "user", completed := 0, enrolled := 1, uploads := 1,
                   created_at := 0, updated_at := 0 }],
    courses := [{ id := 20, title := "t", description := none,
                  content_type := "text", content_url := none,
                  content_text := some "body", uploader_id := 1,
                  access_type := "public", difficulty := none, tags := [],
                  image_url := none, uploader_email := none,
                  is_approved := true, created_at := 0, updated_at := 0 }],
    user_courses := [{ id := 10, user_id := 1, course_id := 20,
                       completed := false, completed_at := none, added_at := 0 }] }

/-- A concrete fresh enrollment row used by witnesses. -/
def ucNew : UserCourseRow :=
  { id := 11, user_id := 1, course_id := 20, completed := false,
    completed_at := none, added_at := 3 }

/-- A concrete fresh course row used by witnesses. -/
def courseNew : CourseRow :=
  { id := 21, title := "u", description := none, content_type := "video",
    content_url := some "https://v", content_text := none, uploader_id := 1,
    access_type := "public", difficulty := none, tags := [], image_url := none,
    uploader_email := none, is_approved := true, created_at := 4, updated_at := 4 }

/-- The enrollment row with id 10 living in `dbC2`. -/
def ucOld : UserCourseRow :=
  { id := 10, user_id := 1, course_id := 20, completed := false,
    completed_at := none, added_at := 0 }

/-- The course row with id 20 living in `dbC2`. -/
def courseOld : CourseRow :=
  { id := 20, title := "t", description := none, content_type := "text",
    content_url := none, content_text := some "body", uploader_id := 1,
    access_type := "public", difficulty := none, tags := [], image_url := none,
    uploader_email := none, is_approved := true, created_at := 0, updated_at := 0 }

/-- C2 witness: the dispatch equalities hold on `dbC2` for the enrollment
row with id 10 and the course with id 20. -/
theorem trigger_dispatch_witness :
    (dbC2.user_courses.find? (fun x => x.id == 10) = some ucOld) ∧
    (dbC2.courses.find? (fun x => x.id == 20) = some courseOld) ∧
    (insert_user_course ucNew dbC2
      = update_profile_stats ucNew.user_id (raw_insert_user_course ucNew dbC2) ∧
     update_user_course 10 (fun x => { x with completed := true }) dbC2
      = update_profile_stats ucOld.user_id
          (raw_update_user_course (fun x => x.id == 10)
            (fun x => { x with completed := true }) dbC2) ∧
     delete_user_course 10 dbC2
      = update_profile_stats ucOld.user_id
          (raw_delete_user_course (fun x => x.id == 10) dbC2) ∧
     insert_course courseNew dbC2
      = update_profile_stats courseNew.uploader_id
          (raw_insert_course courseNew dbC2) ∧
     update_course 20 (fun x => { x with title := "t2" }) dbC2
      = update_profile_stats courseOld.uploader_id
          (raw_update_course 20 (fun x => { x with title := "t2" }) dbC2) ∧
     delete_course 20 dbC2
      = update_profile_stats courseOld.uploader_id
          (raw_delete_course 20 dbC2)) :=
  ⟨by decide, by decide,
   trigger_dispatch dbC2 ucNew courseNew 10 20
     (fun x => { x with completed := true }) (fun x => { x with title := "t2" })
     ucOld courseOld (by decide) (by decide)⟩

lemma list_map_congr {α β : Type} (l : List α) (f g : α → β)
    (h : ∀ x ∈ l, f x = g x) : l.map f = l.map g := by
  induction l with
  | nil => rfl
  | cons a t ih =>
      simp only [List.map_cons]
      rw [h a (by simp), ih (fun x hx => h x (by simp [hx]))]

lemma upsRow_idem (u : Nat) (ucs : List UserCourseRow) (cs : List CourseRow)
    (p : ProfileRow) :
    upsRow u ucs cs (upsRow u ucs cs p) = upsRow u ucs cs p := by
  by_cases h : p.user_id = u
  · rw [upsRow_of_eq u ucs cs p h]
    exact upsRow_of_eq u ucs cs _ h
  · rw [upsRow_of_ne u ucs cs p h, upsRow_of_ne u ucs cs p h]

/-- C3 theorem. Recomputation is idempotent and its result depends only on
the underlying `user_courses` and `courses` rows: a second
`update_profile_stats` with no intervening mutation changes nothing, and two
states with the same underlying rows get the same three counters assigned. -/
theorem update_profile_stats_idempotent (u : Nat) (s t : DBState)
    (huc : s.user_courses = t.user_courses) (hcs : s.courses = t.courses) :
    update_profile_stats u (update_profile_stats u s) = update_profile_stats u s ∧
    (∀ p ∈ (update_profile_stats u s).profiles, p.user_id = u →
     ∀ q ∈ (update_profile_stats u t).profiles, q.user_id = u →
       p.completed = q.completed ∧ p.enrolled = q.enrolled ∧
       p.uploads = q.uploads) := by
  constructor
  · have h2 : (update_profile_stats u s).profiles.map
        (upsRow u s.user_courses s.courses)
        = (update_profile_stats u s).profiles := by
      rw [ups_profiles, List.map_map]
      exact list_map_congr _ _ _
        (fun p _ => upsRow_idem u s.user_courses s.courses p)
    calc update_profile_stats u (update_profile_stats u s)
        = { update_profile_stats u s with
            profiles := (update_profile_stats u s).profiles.map
              (upsRow u s.user_courses s.courses) } := rfl
      _ = update_profile_stats u s := by rw [h2]
  · intro p hp hpu q hq hqu
    rw [ups_profiles] at hp hq
    obtain ⟨p0, _, rfl⟩ := List.mem_map.mp hp
    obtain ⟨q0, _, rfl⟩ := List.mem_map.mp hq
    rw [upsRow_user_id] at hpu hqu
    rw [upsRow_of_eq u _ _ p0 hpu, upsRow_of_eq u _ _ q0 hqu, huc, hcs]
    exact ⟨rfl, rfl, rfl⟩

/-- C3 witness: on `dbC2` (used for both states), a second recompute for
user 1 is a no-op and the counters assigned agree. -/
theorem update_profile_stats_idempotent_witness :
    dbC2.user_courses = dbC2.user_courses ∧ dbC2.courses = dbC2.courses ∧
    (update_profile_stats 1 (update_profile_stats 1 dbC2)
       = update_profile_stats 1 dbC2 ∧
     (∀ p ∈ (update_profile_stats 1 dbC2).profiles, p.user_id = 1 →
      ∀ q ∈ (update_profile_stats 1 dbC2).profiles, q.user_id = 1 →
        p.completed = q.completed ∧ p.enrolled = q.enrolled ∧
        p.uploads = q.uploads)) :=
  ⟨rfl, rfl, update_profile_stats_idempotent 1 dbC2 dbC2 rfl rfl⟩

/-- C8 theorem. `user_courses.course_id` references `courses` with no
`ON DELETE` clause, so deleting a course that still has at least one
dependent enrollment row is rejected (`none`): the transaction rolls back
and no table or counter changes — the enrollments must be deleted first. -/
theorem delete_course_checked_rejects (cid : Nat) (s : DBState)
    (h : ∃ x ∈ s.user_courses, x.course_id = cid) :
    delete_course_checked cid s = none := by
  unfold delete_course_checked
  obtain ⟨x, hx, hcid⟩ := h
  have hany : s.user_courses.any (fun r => r.course_id == cid) = true :=
    List.any_eq_true.mpr ⟨x, hx, by simp [hcid]⟩
  simp [hany]

/-- C8 witness: in `dbC2` the enrollment with id 10 references course 20,
so deleting course 20 is rejected. -/
theorem delete_course_checked_rejects_witness :
    (∃ x ∈ dbC2.user_courses, x.course_id = 20) ∧
    delete_course_checked 20 dbC2 = none :=
  ⟨⟨ucOld, by decide, rfl⟩, delete_course_checked_rejects 20 dbC2
    ⟨ucOld, by decide, rfl⟩⟩

lemma list_find_append {α : Type} (p : α → Bool) (l1 l2 : List α)
    (h : ∀ x ∈ l1, p x = false) : (l1 ++ l2).find? p = l2.find? p := by
  induction l1 with
  | nil => rfl
  | cons a t ih =>
      rw [List.cons_append, List.find?_cons, h a (by simp)]
      exact ih (fun x hx => h x (by simp [hx]))

lemma list_filter_true {α : Type} (p : α → Bool) (l : List α)
    (h : ∀ x ∈ l, p x = true) : l.filter p = l := by
  induction l with
  | nil => rfl
  | cons a t ih =>
      rw [List.filter_cons, h a (by simp)]
      simp only [if_true]
      rw [ih (fun x hx => h x (by simp [hx]))]

/-- C4 theorem. Deletion symmetry: if user U is not yet enrolled in course C
and U's counters agree with their defining counts (as the central invariant
guarantees), then inserting the `user_courses` row for (U, C) and immediately
deleting it restores the entire database state — in particular all three
counters on U's profile return to their pre-enrollment values. -/
theorem enroll_unenroll_roundtrip (s : DBState) (r : UserCourseRow)
    (hfresh : ∀ x ∈ s.user_courses, x.id ≠ r.id)
    (hpair : ∀ x ∈ s.user_courses,
      ¬(x.user_id = r.user_id ∧ x.course_id = r.course_id))
    (hcons : ∀ p ∈ s.profiles, p.user_id = r.user_id →
      p.completed = countCompleted s.user_courses r.user_id ∧
      p.enrolled = countEnrolled s.user_courses r.user_id ∧
      p.uploads = countUploads s.courses r.user_id) :
    delete_user_course r.id (insert_user_course r s) = s := by
  have hfind : (insert_user_course r s).user_courses.find?
      (fun x => x.id == r.id) = some r := by
    show (s.user_courses ++ [r]).find? (fun x => x.id == r.id) = some r
    rw [list_find_append _ _ _ (fun x hx => by
      rw [beq_eq_false_iff_ne]; exact hfresh x hx)]
    simp [List.find?]
  have hdel : delete_user_course r.id (insert_user_course r s)
      = update_profile_stats r.user_id
          (raw_delete_user_course (fun x => x.id == r.id)
            (insert_user_course r s)) := by
    unfold delete_user_course delete_user_course_where
    rw [hfind]
    rfl
  have huc : (s.user_courses ++ [r]).filter (fun x => !(x.id == r.id))
      = s.user_courses := by
    rw [List.filter_append]
    have h1 : s.user_courses.filter (fun x => !(x.id == r.id))
        = s.user_courses := by
      apply list_filter_true
      intro x hx
      rw [Bool.not_eq_true', beq_eq_false_iff_ne]
      exact hfresh x hx
    have h2 : ([r] : List UserCourseRow).filter (fun x => !(x.id == r.id))
        = [] := by simp [List.filter]
    rw [h1, h2, List.append_nil]
  rw [hdel]
  ext1
  · -- profiles
    show (s.profiles.map
        (upsRow r.user_id (s.user_courses ++ [r]) s.courses)).map
        (upsRow r.user_id
          ((s.user_courses ++ [r]).filter (fun x => !(x.id == r.id)))
          s.courses)
      = s.profiles
    rw [huc, List.map_map]
    apply list_map_id_of_forall
    intro p hp
    simp only [Function.comp_apply]
    by_cases h : p.user_id = r.user_id
    · rw [upsRow_of_eq _ _ _ _ h]
      have h2 := upsRow_of_eq r.user_id s.user_courses s.courses
        ({ p with
           completed := countCompleted (s.user_courses ++ [r]) r.user_id
           enrolled := countEnrolled (s.user_courses ++ [r]) r.user_id
           uploads := countUploads s.courses r.user_id }) h
      rw [h2]
      obtain ⟨e1, e2, e3⟩ := hcons p hp h
      rw [← e1, ← e2, ← e3]
    · rw [upsRow_of_ne _ _ _ _ h, upsRow_of_ne _ _ _ _ h]
  · -- courses
    rfl
  · -- user_courses
    show (s.user_courses ++ [r]).filter (fun x => !(x.id == r.id))
      = s.user_courses
    exact huc

/-- Witness state for C4: `dbC2` with a second uploaded course (id 21) and
the uploads counter consistently at 2. -/
def dbC4 : DBState :=
  { profiles := [{ user_id := 1, full_name := none, avatar_url := none,
                   role := "user", completed := 0, enrolled := 1, uploads := 2,
                   created_at := 0, updated_at := 0 }],
    courses := [courseOld, courseNew],
    user_courses := [ucOld] }

/-- The fresh enrollment row (user 1, course 21) used in the C4 witness. -/
def ucRound : UserCourseRow :=
  { id := 12, user_id := 1, course_id := 21, completed := false,
    completed_at := none, added_at := 5 }

/-- C4 witness: in `dbC4`, enrolling user 1 in course 21 and immediately
unenrolling restores the state. -/
theorem enroll_unenroll_roundtrip_witness :
    (∀ x ∈ dbC4.user_courses, x.id ≠ ucRound.id) ∧
    (∀ x ∈ dbC4.user_courses,
      ¬(x.user_id = ucRound.user_id ∧ x.course_id = ucRound.course_id)) ∧
    (∀ p ∈ dbC4.profiles, p.user_id = ucRound.user_id →
      p.completed = countCompleted dbC4.user_courses ucRound.user_id ∧
      p.enrolled = countEnrolled dbC4.user_courses ucRound.user_id ∧
      p.uploads = countUploads dbC4.courses ucRound.user_id) ∧
    delete_user_course ucRound.id (insert_user_course ucRound dbC4) = dbC4 :=
  ⟨by decide, by decide, by decide,
   enroll_unenroll_roundtrip dbC4 ucRound (by decide) (by decide) (by decide)⟩

lemma update_uc_where_eq (pred : UserCourseRow → Bool)
    (f : UserCourseRow → UserCourseRow) (s : DBState) (old : UserCourseRow)
    (h : s.user_courses.find? pred = some old) :
    update_user_course_where pred f s
    = update_profile_stats (f old).user_id (raw_update_user_course pred f s) := by
  unfold update_user_course_where
  rw [h]
  rfl

lemma update_uc_where_user_courses (pred : UserCourseRow → Bool)
    (f : UserCourseRow → UserCourseRow) (s : DBState) :
    (update_user_course_where pred f s).user_courses
    = s.user_courses.map (fun r => if pred r then f r else r) := by
  unfold update_user_course_where
  cases h : s.user_courses.find? pred <;> rfl

lemma toggle_user_courses (rid : Nat) (cur : Bool) (uid n : Nat) (s : DBState) :
    (toggleCourseCompletion rid cur uid n s).user_courses
    = s.user_courses.map (fun r => if (r.id == rid && r.user_id == uid)
        then { r with completed := !cur,
                      completed_at := if !cur then some n else none }
        else r) :=
  update_uc_where_user_courses _ _ s

lemma list_find_map_guard {α : Type} (pred : α → Bool) (f : α → α) (l : List α)
    (hf : ∀ x, pred x = true → pred (f x) = true) :
    (l.map (fun x => if pred x then f x else x)).find? pred
    = (l.find? pred).map f := by
  induction l with
  | nil => rfl
  | cons a t ih =>
      simp only [List.map_cons, List.find?_cons]
      cases h : pred a
      · simp [h, ih]
      · simp [h, hf a h]

lemma filter_length_map_stable {α : Type} (l : List α) (g : α → α) (q : α → Bool)
    (h : ∀ x ∈ l, q (g x) = q x) :
    ((l.map g).filter q).length = (l.filter q).length := by
  induction l with
  | nil => rfl
  | cons a t ih =>
      simp only [List.map_cons, List.filter_cons, h a (by simp)]
      cases hq : q a <;>
        simp [hq, ih (fun x hx => h x (by simp [hx]))]

/-- The row predicate of `toggleCourseCompletion`'s two `.eq` filters. -/
def toggleCond (rid uid : Nat) (x : UserCourseRow) : Bool :=
  x.id == rid && x.user_id == uid

/-- The `SET` clause of the completion toggle, as a row transformer. -/
def toggleFn (cur : Bool) (now : Nat) (r : UserCourseRow) : UserCourseRow :=
  { r with completed := !cur, completed_at := if !cur then some now else none }

lemma toggleCourseCompletion_eq (rid : Nat) (cur : Bool) (uid n : Nat)
    (s : DBState) :
    toggleCourseCompletion rid cur uid n s
    = update_user_course_where (toggleCond rid uid) (toggleFn cur n) s := rfl

lemma toggle_user_courses2 (rid : Nat) (cur : Bool) (uid n : Nat) (s : DBState) :
    (toggleCourseCompletion rid cur uid n s).user_courses
    = s.user_courses.map
        (fun r => if toggleCond rid uid r then toggleFn cur n r else r) := by
  rw [toggleCourseCompletion_eq]
  exact update_uc_where_user_courses _ _ s

/-- C5 theorem. Toggle round-trip for `toggleCourseCompletion`: starting from
an enrollment row that is not completed (with `id` the primary key and the
profile's `completed` counter agreeing with its defining count, as the
central invariant guarantees), marking the enrollment completed sets the
flag and stamps `completed_at = now`; immediately marking it incomplete
clears both the flag and the timestamp and leaves the profile's `completed`
counter equal to its value before the toggle. -/
theorem toggle_roundtrip (s : DBState) (rid uid n1 n2 : Nat) (r0 : UserCourseRow)
    (hfind : s.user_courses.find? (fun x => x.id == rid && x.user_id == uid)
      = some r0)
    (huniq : ∀ x ∈ s.user_courses, x.id = rid → x = r0)
    (hr0c : r0.completed = false)
    (hcons : ∀ p ∈ s.profiles, p.user_id = uid →
      p.completed = countCompleted s.user_courses uid) :
    ((toggleCourseCompletion rid false uid n1 s).user_courses.find?
        (fun x => x.id == rid && x.user_id == uid)
      = some { r0 with completed := true, completed_at := some n1 }) ∧
    ((toggleCourseCompletion rid true uid n2
        (toggleCourseCompletion rid false uid n1 s)).user_courses.find?
        (fun x => x.id == rid && x.user_id == uid)
      = some { r0 with completed := false, completed_at := none }) ∧
    (∀ q ∈ (toggleCourseCompletion rid true uid n2
        (toggleCourseCompletion rid false uid n1 s)).profiles, q.user_id = uid →
     ∀ p ∈ s.profiles, p.user_id = uid → q.completed = p.completed) := by
  have hfindc : s.user_courses.find? (toggleCond rid uid) = some r0 := hfind
  have hu : r0.user_id = uid := by
    have h0 : toggleCond rid uid r0 = true := List.find?_some hfindc
    unfold toggleCond at h0
    simp only [Bool.and_eq_true, beq_iff_eq] at h0
    exact h0.2
  have ha2 : (toggleCourseCompletion rid false uid n1 s).user_courses.find?
      (toggleCond rid uid) = some (toggleFn false n1 r0) := by
    rw [toggle_user_courses2,
        list_find_map_guard (toggleCond rid uid) (toggleFn false n1)
          s.user_courses (fun x hx => hx), hfindc]
    rfl
  have hb2 : (toggleCourseCompletion rid true uid n2
      (toggleCourseCompletion rid false uid n1 s)).user_courses.find?
      (toggleCond rid uid) = some (toggleFn true n2 (toggleFn false n1 r0)) := by
    rw [toggle_user_courses2, toggle_user_courses2,
        list_find_map_guard (toggleCond rid uid) (toggleFn true n2) _
          (fun x hx => hx),
        list_find_map_guard (toggleCond rid uid) (toggleFn false n1)
          s.user_courses (fun x hx => hx), hfindc]
    rfl
  refine ⟨ha2, hb2, ?_⟩
  intro q hq hqu p hp hpu
  have e2 : toggleCourseCompletion rid true uid n2
      (toggleCourseCompletion rid false uid n1 s)
      = update_profile_stats r0.user_id
          (raw_update_user_course (toggleCond rid uid) (toggleFn true n2)
            (toggleCourseCompletion rid false uid n1 s)) := by
    rw [toggleCourseCompletion_eq rid true uid n2]
    exact update_uc_where_eq (toggleCond rid uid) (toggleFn true n2) _
      (toggleFn false n1 r0) ha2
  rw [e2, ups_profiles] at hq
  obtain ⟨q0, hq0, rfl⟩ := List.mem_map.mp hq
  rw [upsRow_user_id] at hqu
  rw [upsRow_of_eq _ _ _ q0 (by rw [hqu, hu])]
  show countCompleted
      (raw_update_user_course (toggleCond rid uid) (toggleFn true n2)
        (toggleCourseCompletion rid false uid n1 s)).user_courses r0.user_id
    = p.completed
  have hXuc : (raw_update_user_course (toggleCond rid uid) (toggleFn true n2)
      (toggleCourseCompletion rid false uid n1 s)).user_courses
      = s.user_courses.map
          ((fun r => if toggleCond rid uid r then toggleFn true n2 r else r)
           ∘ (fun r => if toggleCond rid uid r then toggleFn false n1 r else r)) := by
    show (toggleCourseCompletion rid false uid n1 s).user_courses.map _ = _
    rw [toggle_user_courses2, List.map_map]
  rw [hXuc]
  have hstable : ∀ x ∈ s.user_courses,
      ((((fun r => if toggleCond rid uid r then toggleFn true n2 r else r)
         ∘ (fun r => if toggleCond rid uid r then toggleFn false n1 r else r)) x).user_id
          == r0.user_id
        && (((fun r => if toggleCond rid uid r then toggleFn true n2 r else r)
         ∘ (fun r => if toggleCond rid uid r then toggleFn false n1 r else r)) x).completed)
      = (x.user_id == r0.user_id && x.completed) := by
    intro x hx
    simp only [Function.comp_apply]
    by_cases hpx : toggleCond rid uid x = true
    · have hxid : x.id = rid := by
        unfold toggleCond at hpx
        simp only [Bool.and_eq_true, beq_iff_eq] at hpx
        exact hpx.1
      have hxr0 : x = r0 := huniq x hx hxid
      subst hxr0
      rw [if_pos hpx]
      rw [if_pos (show toggleCond rid uid (toggleFn false n1 x) = true from hpx)]
      simp [toggleFn, hr0c]
    · rw [if_neg hpx, if_neg hpx]
  unfold countCompleted
  rw [filter_length_map_stable _ _ _ hstable, hu]
  exact (hcons p hp hpu).symm

/-- C5 witness: in `dbC2`, toggling enrollment 10 of user 1 to completed at
time 7 and back at time 8 stamps then clears the timestamp and restores the
`completed` counter. -/
theorem toggle_roundtrip_witness :
    (dbC2.user_courses.find? (fun x => x.id == 10 && x.user_id == 1)
      = some ucOld) ∧
    (∀ x ∈ dbC2.user_courses, x.id = 10 → x = ucOld) ∧
    ucOld.completed = false ∧
    (∀ p ∈ dbC2.profiles, p.user_id = 1 →
      p.completed = countCompleted dbC2.user_courses 1) ∧
    (((toggleCourseCompletion 10 false 1 7 dbC2).user_courses.find?
        (fun x => x.id == 10 && x.user_id == 1)
      = some { ucOld with completed := true, completed_at := some 7 }) ∧
     ((toggleCourseCompletion 10 true 1 8
        (toggleCourseCompletion 10 false 1 7 dbC2)).user_courses.find?
        (fun x => x.id == 10 && x.user_id == 1)
      = some { ucOld with completed := false, completed_at := none }) ∧
     (∀ q ∈ (toggleCourseCompletion 10 true 1 8
        (toggleCourseCompletion 10 false 1 7 dbC2)).profiles, q.user_id = 1 →
      ∀ p ∈ dbC2.profiles, p.user_id = 1 → q.completed = p.completed)) :=
  ⟨by decide, by decide, by decide, by decide,
   toggle_roundtrip dbC2 10 1 7 8 ucOld (by decide) (by decide) (by decide)
     (by decide)⟩

/-! ### Non-negativity of the counters (C7) -/

/-- All profile counters are non-negative. -/
def countersNonneg (s : DBState) : Prop :=
  ∀ p ∈ s.profiles, 0 ≤ p.completed ∧ 0 ≤ p.enrolled ∧ 0 ≤ p.uploads

lemma ups_preserves_nonneg (u : Nat) (s : DBState) (h : countersNonneg s) :
    countersNonneg (update_profile_stats u s) := by
  intro p hp
  rw [ups_profiles] at hp
  obtain ⟨p0, hp0, rfl⟩ := List.mem_map.mp hp
  by_cases hpu : p0.user_id = u
  · rw [upsRow_of_eq _ _ _ _ hpu]
    exact ⟨Int.ofNat_nonneg _, Int.ofNat_nonneg _, Int.ofNat_nonneg _⟩
  · rw [upsRow_of_ne _ _ _ _ hpu]
    exact h p0 hp0

lemma trigger_uc_preserves_nonneg (op : TgOp) (oldR newR : Option UserCourseRow)
    (s : DBState) (h : countersNonneg s) :
    countersNonneg (trigger_update_profile_stats op oldR newR s) := by
  cases op <;> cases oldR <;> cases newR <;>
    first
      | exact h
      | exact ups_preserves_nonneg _ _ h

lemma trigger_course_preserves_nonneg (op : TgOp) (oldR newR : Option CourseRow)
    (s : DBState) (h : countersNonneg s) :
    countersNonneg (trigger_update_upload_stats op oldR newR s) := by
  cases op <;> cases oldR <;> cases newR <;>
    first
      | exact h
      | exact ups_preserves_nonneg _ _ h

lemma update_uc_where_preserves_nonneg (pred : UserCourseRow → Bool)
    (f : UserCourseRow → UserCourseRow) (s : DBState) (h : countersNonneg s) :
    countersNonneg (update_user_course_where pred f s) := by
  unfold update_user_course_where
  cases hf : s.user_courses.find? pred
  · exact h
  · exact trigger_uc_preserves_nonneg _ _ _ _ h

lemma delete_uc_where_preserves_nonneg (pred : UserCourseRow → Bool)
    (s : DBState) (h : countersNonneg s) :
    countersNonneg (delete_user_course_where pred s) := by
  unfold delete_user_course_where
  cases hf : s.user_courses.find? pred
  · exact h
  · exact trigger_uc_preserves_nonneg _ _ _ _ h

lemma updateProfile_preserves_nonneg (uid : Nat) (n seed : String) (t : Nat)
    (s : DBState) (h : countersNonneg s) :
    countersNonneg (updateProfile uid n seed t s) := by
  intro p hp
  simp only [updateProfile] at hp
  obtain ⟨p0, hp0, rfl⟩ := List.mem_map.mp hp
  cases hb : (p0.user_id == uid) <;> exact h p0 hp0

lemma applyOp_preserves_nonneg (s : DBState) (op : Op) (h : countersNonneg s) :
    countersNonneg (applyOp s op) := by
  cases op with
  | newUser uid n t =>
      intro p hp
      rcases List.mem_append.mp hp with hp1 | hp2
      · exact h p hp1
      · rw [List.mem_singleton.mp hp2]
        exact ⟨le_refl 0, le_refl 0, le_refl 0⟩
  | insUC r => exact trigger_uc_preserves_nonneg _ _ _ _ h
  | updUC rid f => exact update_uc_where_preserves_nonneg _ _ _ h
  | delUC rid => exact delete_uc_where_preserves_nonneg _ _ h
  | insCourse c => exact trigger_course_preserves_nonneg _ _ _ _ h
  | updCourse cid g =>
      show countersNonneg (update_course cid g s)
      unfold update_course
      cases hf : s.courses.find? (fun c => c.id == cid)
      · exact h
      · exact trigger_course_preserves_nonneg _ _ _ _ h
  | delCourse cid =>
      show countersNonneg (delete_course cid s)
      unfold delete_course
      cases hf : s.courses.find? (fun c => c.id == cid)
      · exact h
      · exact trigger_course_preserves_nonneg _ _ _ _ h
  | recompute uid => exact ups_preserves_nonneg _ _ h
  | editProfile uid n seed t => exact updateProfile_preserves_nonneg _ _ _ _ _ h
  | toggle rid cur uid t => exact update_uc_where_preserves_nonneg _ _ _ h
  | markCompleted rid cur t => exact update_uc_where_preserves_nonneg _ _ _ h

/-- C7 theorem. In every state reachable from the empty database by the
repository's operations, each profile's three counters are `≥ 0`; moreover a
profile freshly inserted by `handle_new_user` carries the schema defaults
`completed = enrolled = uploads = 0`. -/
theorem profile_counters_nonneg (ops : List Op) :
    (∀ p ∈ (applyOps dbEmpty ops).profiles,
      0 ≤ p.completed ∧ 0 ≤ p.enrolled ∧ 0 ≤ p.uploads) ∧
    (∀ (s : DBState) (uid : Nat) (n : Option String) (t : Nat),
      ∀ p ∈ (handle_new_user uid n t s).profiles,
        p ∈ s.profiles ∨
          (p.user_id = uid ∧ p.completed = 0 ∧ p.enrolled = 0 ∧ p.uploads = 0)) := by
  constructor
  · have key : ∀ (l : List Op) (s : DBState), countersNonneg s →
        countersNonneg (applyOps s l) := by
      intro l
      induction l with
      | nil => exact fun s hs => hs
      | cons op rest ih =>
          intro s hs
          exact ih (applyOp s op) (applyOp_preserves_nonneg s op hs)
    exact key ops dbEmpty (fun p hp => absurd hp (List.not_mem_nil p))
  · intro s uid n t p hp
    rcases List.mem_append.mp hp with hp1 | hp2
    · exact Or.inl hp1
    · exact Or.inr (by rw [List.mem_singleton.mp hp2]; exact ⟨rfl, rfl, rfl, rfl⟩)

/-- C7 witness: after creating user 1 and enrolling them, the reachable
state's single profile has non-negative counters, and the freshly created
profile row of `handle_new_user` has all-zero counters. -/
theorem profile_counters_nonneg_witness :
    (∀ p ∈ (applyOps dbEmpty
        [Op.newUser 1 none 0,
         Op.insCourse courseOld,
         Op.insUC ucOld]).profiles,
      0 ≤ p.completed ∧ 0 ≤ p.enrolled ∧ 0 ≤ p.uploads) ∧
    (∀ p ∈ (handle_new_user 2 none 9 dbEmpty).profiles,
      p ∈ dbEmpty.profiles ∨
        (p.user_id = 2 ∧ p.completed = 0 ∧ p.enrolled = 0 ∧ p.uploads = 0)) :=
  ⟨(profile_counters_nonneg
      [Op.newUser 1 none 0, Op.insCourse courseOld, Op.insUC ucOld]).1,
   (profile_counters_nonneg []).2 dbEmpty 2 none 9⟩

/-! ### The central invariant under sequences of operations (C1) -/

/-- Primary-key uniqueness of `user_courses.id`. -/
def ucIdsNodup (s : DBState) : Prop :=
  (s.user_courses.map (fun r => r.id)).Nodup

/-- Primary-key uniqueness of `courses.id`. -/
def courseIdsNodup (s : DBState) : Prop :=
  (s.courses.map (fun c => c.id)).Nodup

/-- Well-formed state: primary keys unique and the central invariant holds. -/
def dbWellFormed (s : DBState) : Prop :=
  ucIdsNodup s ∧ courseIdsNodup s ∧ statsInvariant s

/-- The central invariant possibly broken at user `u` only. -/
def invariantExcept (u : Nat) (s : DBState) : Prop :=
  ∀ p ∈ s.profiles, p.user_id ≠ u →
    p.completed = countCompleted s.user_courses p.user_id ∧
    p.enrolled = countEnrolled s.user_courses p.user_id ∧
    p.uploads = countUploads s.courses p.user_id

lemma statsInvariant.toExcept {s : DBState} (h : statsInvariant s) (u : Nat) :
    invariantExcept u s :=
  fun p hp _ => h p hp

/-- After `update_profile_stats u`, the central invariant holds as soon as it
held for every user other than `u`. -/
lemma ups_establishes (u : Nat) (s : DBState) (h : invariantExcept u s) :
    statsInvariant (update_profile_stats u s) := by
  intro p hp
  rw [ups_profiles] at hp
  obtain ⟨p0, hp0, rfl⟩ := List.mem_map.mp hp
  by_cases hpu : p0.user_id = u
  · subst hpu
    rw [upsRow_of_eq _ _ _ _ rfl]
    exact ⟨rfl, rfl, rfl⟩
  · rw [upsRow_of_ne _ _ _ _ hpu]
    exact h p0 hp0 hpu

lemma list_filter_false_nil {α : Type} (p : α → Bool) (l : List α)
    (h : ∀ x ∈ l, p x = false) : l.filter p = [] := by
  induction l with
  | nil => rfl
  | cons a t ih =>
      rw [List.filter_cons, h a (by simp)]
      simp only [Bool.false_eq_true, if_false]
      exact ih (fun x hx => h x (by simp [hx]))

lemma list_nodup_append_singleton {α : Type} (l : List α) (a : α)
    (h : l.Nodup) (ha : a ∉ l) : (l ++ [a]).Nodup := by
  induction l with
  | nil => simp
  | cons b t ih =>
      rw [List.cons_append, List.nodup_cons]
      rw [List.nodup_cons] at h
      refine ⟨?_, ih h.2 (fun hmem => ha (by simp [hmem]))⟩
      intro hb
      rcases List.mem_append.mp hb with h1 | h2
      · exact h.1 h1
      · exact ha (by simp [(List.mem_singleton.mp h2).symm])

lemma filter_length_filter_not {α : Type} (l : List α) (pred q : α → Bool)
    (h : ∀ x ∈ l, q x = true → pred x = false) :
    ((l.filter (fun x => !(pred x))).filter q).length = (l.filter q).length := by
  induction l with
  | nil => rfl
  | cons a t ih =>
      have ht := ih (fun x hx hq => h x (by simp [hx]) hq)
      cases hp : pred a
      · have h1 : (a :: t).filter (fun x => !(pred x))
            = a :: t.filter (fun x => !(pred x)) := by
          rw [List.filter_cons, hp]
          rfl
        rw [h1, List.filter_cons, List.filter_cons]
        cases hq : q a
        · rw [if_neg Bool.false_ne_true, if_neg Bool.false_ne_true]
          exact ht
        · rw [if_pos rfl, if_pos rfl, List.length_cons, List.length_cons, ht]
      · have hqa : q a = false := by
          cases hq : q a
          · rfl
          · exact absurd (h a (by simp) hq) (by simp [hp])
        have h1 : (a :: t).filter (fun x => !(pred x))
            = t.filter (fun x => !(pred x)) := by
          rw [List.filter_cons, hp]
          rfl
        rw [h1, List.filter_cons, hqa, if_neg Bool.false_ne_true]
        exact ht

lemma countEnrolled_append_ne (l : List UserCourseRow) (r : UserCourseRow)
    (v : Nat) (h : r.user_id ≠ v) :
    countEnrolled (l ++ [r]) v = countEnrolled l v := by
  unfold countEnrolled
  rw [List.filter_append, list_filter_false_nil _ [r]
    (fun x hx => by
      rw [List.mem_singleton.mp hx, beq_eq_false_iff_ne]
      exact h),
    List.append_nil]

lemma countCompleted_append_ne (l : List UserCourseRow) (r : UserCourseRow)
    (v : Nat) (h : r.user_id ≠ v) :
    countCompleted (l ++ [r]) v = countCompleted l v := by
  unfold countCompleted
  rw [List.filter_append, list_filter_false_nil _ [r]
    (fun x hx => by
      rw [List.mem_singleton.mp hx]
      have : (r.user_id == v) = false := beq_eq_false_iff_ne.mpr h
      rw [this, Bool.false_and]),
    List.append_nil]

lemma countUploads_append_ne (l : List CourseRow) (c : CourseRow)
    (v : Nat) (h : c.uploader_id ≠ v) :
    countUploads (l ++ [c]) v = countUploads l v := by
  unfold countUploads
  rw [List.filter_append, list_filter_false_nil _ [c]
    (fun x hx => by
      rw [List.mem_singleton.mp hx, beq_eq_false_iff_ne]
      exact h),
    List.append_nil]

lemma countEnrolled_eq_zero (l : List UserCourseRow) (u : Nat)
    (h : ∀ x ∈ l, x.user_id ≠ u) : countEnrolled l u = 0 := by
  unfold countEnrolled
  rw [list_filter_false_nil _ l
    (fun x hx => beq_eq_false_iff_ne.mpr (h x hx))]
  rfl

lemma countCompleted_eq_zero (l : List UserCourseRow) (u : Nat)
    (h : ∀ x ∈ l, x.user_id ≠ u) : countCompleted l u = 0 := by
  unfold countCompleted
  rw [list_filter_false_nil _ l
    (fun x hx => by
      have : (x.user_id == u) = false := beq_eq_false_iff_ne.mpr (h x hx)
      rw [this, Bool.false_and])]
  rfl

lemma countUploads_eq_zero (l : List CourseRow) (u : Nat)
    (h : ∀ x ∈ l, x.uploader_id ≠ u) : countUploads l u = 0 := by
  unfold countUploads
  rw [list_filter_false_nil _ l
    (fun x hx => beq_eq_false_iff_ne.mpr (h x hx))]
  rfl

lemma newUser_preserves (uid : Nat) (n : Option String) (t : Nat) (s : DBState)
    (hwf : dbWellFormed s)
    (h1 : ∀ x ∈ s.user_courses, x.user_id ≠ uid)
    (h2 : ∀ c ∈ s.courses, c.uploader_id ≠ uid) :
    dbWellFormed (handle_new_user uid n t s) := by
  obtain ⟨hnd1, hnd2, hinv⟩ := hwf
  refine ⟨hnd1, hnd2, ?_⟩
  intro p hp
  rcases List.mem_append.mp hp with hp1 | hp2
  · exact hinv p hp1
  · rw [List.mem_singleton.mp hp2]
    exact ⟨(countCompleted_eq_zero _ _ h1).symm,
           (countEnrolled_eq_zero _ _ h1).symm,
           (countUploads_eq_zero _ _ h2).symm⟩

lemma insUC_preserves (r : UserCourseRow) (s : DBState)
    (hwf : dbWellFormed s) (hid : ∀ x ∈ s.user_courses, x.id ≠ r.id) :
    dbWellFormed (insert_user_course r s) := by
  obtain ⟨hnd1, hnd2, hinv⟩ := hwf
  refine ⟨?_, hnd2, ?_⟩
  · show ((s.user_courses ++ [r]).map (fun x => x.id)).Nodup
    rw [List.map_append]
    exact list_nodup_append_singleton _ _ hnd1 (by
      intro hmem
      obtain ⟨x, hx, hxid⟩ := List.mem_map.mp hmem
      exact hid x hx hxid)
  · show statsInvariant
      (update_profile_stats r.user_id (raw_insert_user_course r s))
    apply ups_establishes
    intro p hp hne
    obtain ⟨e1, e2, e3⟩ := hinv p hp
    refine ⟨?_, ?_, e3⟩
    · show p.completed = countCompleted (s.user_courses ++ [r]) p.user_id
      rw [countCompleted_append_ne _ _ _ (fun heq => hne heq.symm)]
      exact e1
    · show p.enrolled = countEnrolled (s.user_courses ++ [r]) p.user_id
      rw [countEnrolled_append_ne _ _ _ (fun heq => hne heq.symm)]
      exact e2

lemma insCourse_preserves (c : CourseRow) (s : DBState)
    (hwf : dbWellFormed s) (hid : ∀ x ∈ s.courses, x.id ≠ c.id) :
    dbWellFormed (insert_course c s) := by
  obtain ⟨hnd1, hnd2, hinv⟩ := hwf
  refine ⟨hnd1, ?_, ?_⟩
  · show ((s.courses ++ [c]).map (fun x => x.id)).Nodup
    rw [List.map_append]
    exact list_nodup_append_singleton _ _ hnd2 (by
      intro hmem
      obtain ⟨x, hx, hxid⟩ := List.mem_map.mp hmem
      exact hid x hx hxid)
  · show statsInvariant
      (update_profile_stats c.uploader_id (raw_insert_course c s))
    apply ups_establishes
    intro p hp hne
    obtain ⟨e1, e2, e3⟩ := hinv p hp
    refine ⟨e1, e2, ?_⟩
    show p.uploads = countUploads (s.courses ++ [c]) p.user_id
    rw [countUploads_append_ne _ _ _ (fun heq => hne heq.symm)]
    exact e3

lemma recompute_preserves (u : Nat) (s : DBState) (hwf : dbWellFormed s) :
    dbWellFormed (update_profile_stats u s) :=
  ⟨hwf.1, hwf.2.1, ups_establishes u s (hwf.2.2.toExcept u)⟩

lemma editProfile_preserves (uid : Nat) (n seed : String) (t : Nat)
    (s : DBState) (hwf : dbWellFormed s) :
    dbWellFormed (updateProfile uid n seed t s) := by
  obtain ⟨hnd1, hnd2, hinv⟩ := hwf
  refine ⟨hnd1, hnd2, ?_⟩
  intro p hp
  simp only [updateProfile] at hp
  obtain ⟨p0, hp0, rfl⟩ := List.mem_map.mp hp
  cases hb : (p0.user_id == uid) <;> exact hinv p0 hp0

lemma update_uc_where_preserves (pred : UserCourseRow → Bool)
    (f : UserCourseRow → UserCourseRow) (rid : Nat) (s : DBState)
    (hpred : ∀ x, pred x = true → x.id = rid)
    (hfid : ∀ x, (f x).id = x.id)
    (hfuser : ∀ x, (f x).user_id = x.user_id)
    (hwf : dbWellFormed s) :
    dbWellFormed (update_user_course_where pred f s) := by
  obtain ⟨hnd1, hnd2, hinv⟩ := hwf
  unfold update_user_course_where
  cases hfind : s.user_courses.find? pred with
  | none =>
      have hmapid : s.user_courses.map (fun x => if pred x then f x else x)
          = s.user_courses := by
        apply list_map_id_of_forall
        intro x hx
        have hpx : pred x = false := by
          cases hpx : pred x
          · rfl
          · exact absurd hpx (List.find?_eq_none.mp hfind x hx)
        rw [hpx, if_neg Bool.false_ne_true]
      refine ⟨?_, hnd2, ?_⟩
      · show ((s.user_courses.map (fun x => if pred x then f x else x)).map
            (fun x => x.id)).Nodup
        rw [hmapid]
        exact hnd1
      · intro p hp
        have he := hinv p hp
        show p.completed = countCompleted
            (s.user_courses.map (fun x => if pred x then f x else x)) p.user_id ∧
          p.enrolled = countEnrolled
            (s.user_courses.map (fun x => if pred x then f x else x)) p.user_id ∧
          p.uploads = countUploads s.courses p.user_id
        rw [hmapid]
        exact he
  | some old =>
      have hold_mem : old ∈ s.user_courses := List.mem_of_find?_eq_some hfind
      have hold_pred : pred old = true := List.find?_some hfind
      have holdid : old.id = rid := hpred old hold_pred
      show dbWellFormed (update_profile_stats (f old).user_id
        (raw_update_user_course pred f s))
      refine ⟨?_, hnd2, ?_⟩
      · show ((s.user_courses.map (fun x => if pred x then f x else x)).map
            (fun x => x.id)).Nodup
        rw [List.map_map]
        have hsame : s.user_courses.map
            ((fun x => x.id) ∘ (fun x => if pred x then f x else x))
            = s.user_courses.map (fun x => x.id) := by
          apply list_map_congr
          intro x _
          simp only [Function.comp_apply]
          cases hpx : pred x
          · rw [if_neg Bool.false_ne_true]
          · rw [if_pos rfl]
            exact hfid x
        rw [hsame]
        exact hnd1
      · apply ups_establishes
        intro p hp hne
        have hneold : p.user_id ≠ old.user_id := by
          rw [← hfuser old]
          exact hne
        obtain ⟨e1, e2, e3⟩ := hinv p hp
        refine ⟨?_, ?_, e3⟩
        · show p.completed = countCompleted
            (s.user_courses.map (fun x => if pred x then f x else x)) p.user_id
          unfold countCompleted
          rw [filter_length_map_stable]
          · exact e1
          · intro x hx
            cases hpx : pred x
            · rw [if_neg Bool.false_ne_true]
            · rw [if_pos rfl]
              have hxold : x = old :=
                List.inj_on_of_nodup_map hnd1 hx hold_mem
                  (by show x.id = old.id; rw [hpred x hpx, holdid])
              have h1 : ((f x).user_id == p.user_id) = false := by
                rw [hfuser x, hxold]
                exact beq_eq_false_iff_ne.mpr (Ne.symm hneold)
              have h2 : (x.user_id == p.user_id) = false := by
                rw [hxold]
                exact beq_eq_false_iff_ne.mpr (Ne.symm hneold)
              rw [h1, h2]
              rfl
        · show p.enrolled = countEnrolled
            (s.user_courses.map (fun x => if pred x then f x else x)) p.user_id
          unfold countEnrolled
          rw [filter_length_map_stable]
          · exact e2
          · intro x hx
            cases hpx : pred x
            · rw [if_neg Bool.false_ne_true]
            · rw [if_pos rfl, hfuser x]

lemma delete_uc_where_preserves (pred : UserCourseRow → Bool) (rid : Nat)
    (s : DBState) (hpred : ∀ x, pred x = true → x.id = rid)
    (hwf : dbWellFormed s) :
    dbWellFormed (delete_user_course_where pred s) := by
  obtain ⟨hnd1, hnd2, hinv⟩ := hwf
  unfold delete_user_course_where
  cases hfind : s.user_courses.find? pred with
  | none =>
      have hfil : s.user_courses.filter (fun x => !(pred x))
          = s.user_courses := by
        apply list_filter_true
        intro x hx
        have hpx : pred x = false := by
          cases hpx : pred x
          · rfl
          · exact absurd hpx (List.find?_eq_none.mp hfind x hx)
        rw [hpx]
        rfl
      refine ⟨?_, hnd2, ?_⟩
      · show ((s.user_courses.filter (fun x => !(pred x))).map
            (fun x => x.id)).Nodup
        rw [hfil]
        exact hnd1
      · intro p hp
        have he := hinv p hp
        show p.completed = countCompleted
            (s.user_courses.filter (fun x => !(pred x))) p.user_id ∧
          p.enrolled = countEnrolled
            (s.user_courses.filter (fun x => !(pred x))) p.user_id ∧
          p.uploads = countUploads s.courses p.user_id
        rw [hfil]
        exact he
  | some old =>
      have hold_mem : old ∈ s.user_courses := List.mem_of_find?_eq_some hfind
      have hold_pred : pred old = true := List.find?_some hfind
      have holdid : old.id = rid := hpred old hold_pred
      show dbWellFormed (update_profile_stats old.user_id
        (raw_delete_user_course pred s))
      refine ⟨?_, hnd2, ?_⟩
      · show ((s.user_courses.filter (fun x => !(pred x))).map
            (fun x => x.id)).Nodup
        exact List.Nodup.sublist
          (List.Sublist.map _ (List.filter_sublist _)) hnd1
      · apply ups_establishes
        intro p hp hne
        obtain ⟨e1, e2, e3⟩ := hinv p hp
        refine ⟨?_, ?_, e3⟩
        · show p.completed = countCompleted
            (s.user_courses.filter (fun x => !(pred x))) p.user_id
          unfold countCompleted
          rw [filter_length_filter_not]
          · exact e1
          · intro x hx hq
            cases hpx : pred x
            · rfl
            · exfalso
              have hxold : x = old :=
                List.inj_on_of_nodup_map hnd1 hx hold_mem
                  (by show x.id = old.id; rw [hpred x hpx, holdid])
              have hxu : x.user_id = p.user_id := by
                have hq2 := hq
                rw [Bool.and_eq_true, beq_iff_eq] at hq2
                exact hq2.1
              exact hne (by rw [← hxu, hxold])
        · show p.enrolled = countEnrolled
            (s.user_courses.filter (fun x => !(pred x))) p.user_id
          unfold countEnrolled
          rw [filter_length_filter_not]
          · exact e2
          · intro x hx hq
            cases hpx : pred x
            · rfl
            · exfalso
              have hxold : x = old :=
                List.inj_on_of_nodup_map hnd1 hx hold_mem
                  (by show x.id = old.id; rw [hpred x hpx, holdid])
              have hxu : x.user_id = p.user_id := by
                rw [beq_iff_eq] at hq
                exact hq
              exact hne (by rw [← hxu, hxold])

lemma update_course_preserves (cid : Nat) (g : CourseRow → CourseRow)
    (s : DBState) (hgid : ∀ x, (g x).id = x.id)
    (hgup : ∀ x, (g x).uploader_id = x.uploader_id)
    (hwf : dbWellFormed s) :
    dbWellFormed (update_course cid g s) := by
  obtain ⟨hnd1, hnd2, hinv⟩ := hwf
  unfold update_course
  cases hfind : s.courses.find? (fun c => c.id == cid) with
  | none =>
      have hmapid : s.courses.map (fun c => if c.id == cid then g c else c)
          = s.courses := by
        apply list_map_id_of_forall
        intro x hx
        have hpx : (x.id == cid) = false := by
          cases hpx : (x.id == cid)
          · rfl
          · exact absurd hpx (List.find?_eq_none.mp hfind x hx)
        rw [hpx, if_neg Bool.false_ne_true]
      refine ⟨hnd1, ?_, ?_⟩
      · show ((s.courses.map (fun c => if c.id == cid then g c else c)).map
            (fun c => c.id)).Nodup
        rw [hmapid]
        exact hnd2
      · intro p hp
        have he := hinv p hp
        show p.completed = countCompleted s.user_courses p.user_id ∧
          p.enrolled = countEnrolled s.user_courses p.user_id ∧
          p.uploads = countUploads
            (s.courses.map (fun c => if c.id == cid then g c else c)) p.user_id
        rw [hmapid]
        exact he
  | some old =>
      show dbWellFormed (update_profile_stats (g old).uploader_id
        (raw_update_course cid g s))
      refine ⟨hnd1, ?_, ?_⟩
      · show ((s.courses.map (fun c => if c.id == cid then g c else c)).map
            (fun c => c.id)).Nodup
        rw [List.map_map]
        have hsame : s.courses.map
            ((fun c => c.id) ∘ (fun c => if c.id == cid then g c else c))
            = s.courses.map (fun c => c.id) := by
          apply list_map_congr
          intro x _
          simp only [Function.comp_apply]
          cases hpx : (x.id == cid)
          · rw [if_neg Bool.false_ne_true]
          · rw [if_pos rfl]
            exact hgid x
        rw [hsame]
        exact hnd2
      · apply ups_establishes
        intro p hp _
        obtain ⟨e1, e2, e3⟩ := hinv p hp
        refine ⟨e1, e2, ?_⟩
        show p.uploads = countUploads
          (s.courses.map (fun c => if c.id == cid then g c else c)) p.user_id
        unfold countUploads
        rw [filter_length_map_stable]
        · exact e3
        · intro x hx
          cases hpx : (x.id == cid)
          · rw [if_neg Bool.false_ne_true]
          · rw [if_pos rfl, hgup x]

lemma delete_course_preserves (cid : Nat) (s : DBState)
    (hwf : dbWellFormed s) :
    dbWellFormed (delete_course cid s) := by
  obtain ⟨hnd1, hnd2, hinv⟩ := hwf
  unfold delete_course
  cases hfind : s.courses.find? (fun c => c.id == cid) with
  | none =>
      have hfil : s.courses.filter (fun c => !(c.id == cid)) = s.courses := by
        apply list_filter_true
        intro x hx
        have hpx : (x.id == cid) = false := by
          cases hpx : (x.id == cid)
          · rfl
          · exact absurd hpx (List.find?_eq_none.mp hfind x hx)
        rw [hpx]
        rfl
      refine ⟨hnd1, ?_, ?_⟩
      · show ((s.courses.filter (fun c => !(c.id == cid))).map
            (fun c => c.id)).Nodup
        rw [hfil]
        exact hnd2
      · intro p hp
        have he := hinv p hp
        show p.completed = countCompleted s.user_courses p.user_id ∧
          p.enrolled = countEnrolled s.user_courses p.user_id ∧
          p.uploads = countUploads
            (s.courses.filter (fun c => !(c.id == cid))) p.user_id
        rw [hfil]
        exact he
  | some old =>
      have hold_mem : old ∈ s.courses := List.mem_of_find?_eq_some hfind
      have hold_pred := List.find?_some hfind
      have holdid : old.id = cid := by
        rw [beq_iff_eq] at hold_pred
        exact hold_pred
      show dbWellFormed (update_profile_stats old.uploader_id
        (raw_delete_course cid s))
      refine ⟨hnd1, ?_, ?_⟩
      · show ((s.courses.filter (fun c => !(c.id == cid))).map
            (fun c => c.id)).Nodup
        exact List.Nodup.sublist
          (List.Sublist.map _ (List.filter_sublist _)) hnd2
      · apply ups_establishes
        intro p hp hne
        obtain ⟨e1, e2, e3⟩ := hinv p hp
        refine ⟨e1, e2, ?_⟩
        show p.uploads = countUploads
          (s.courses.filter (fun c => !(c.id == cid))) p.user_id
        unfold countUploads
        rw [filter_length_filter_not]
        · exact e3
        · intro x hx hq
          cases hpx : (x.id == cid)
          · rfl
          · exfalso
            have hxold : x = old :=
              List.inj_on_of_nodup_map hnd2 hx hold_mem
                (by
                  show x.id = old.id
                  rw [beq_iff_eq] at hpx
                  rw [hpx, holdid])
            have hxu : x.uploader_id = p.user_id := by
              rw [beq_iff_eq] at hq
              exact hq
            exact hne (by rw [← hxu, hxold])

lemma toggleCond_id {rid uid : Nat} {x : UserCourseRow}
    (h : toggleCond rid uid x = true) : x.id = rid := by
  unfold toggleCond at h
  rw [Bool.and_eq_true] at h
  exact eq_of_beq h.1

/-- Side conditions PostgreSQL itself enforces on each operation: fresh
primary keys on insert, profile creation before any row references the user
(foreign keys), and — the one condition the triggers silently rely on —
updates never reassigning a row's owning user. -/
def opOk (s : DBState) : Op → Prop
  | Op.newUser uid _ _ =>
      (∀ x ∈ s.user_courses, x.user_id ≠ uid) ∧
      (∀ c ∈ s.courses, c.uploader_id ≠ uid)
  | Op.insUC r => ∀ x ∈ s.user_courses, x.id ≠ r.id
  | Op.updUC _ f => (∀ x, (f x).id = x.id) ∧ (∀ x, (f x).user_id = x.user_id)
  | Op.delUC _ => True
  | Op.insCourse c => ∀ x ∈ s.courses, x.id ≠ c.id
  | Op.updCourse _ g =>
      (∀ x, (g x).id = x.id) ∧ (∀ x, (g x).uploader_id = x.uploader_id)
  | Op.delCourse _ => True
  | Op.recompute _ => True
  | Op.editProfile _ _ _ _ => True
  | Op.toggle _ _ _ _ => True
  | Op.markCompleted _ _ _ => True

/-- `opOk` holding along a whole sequence of operations. -/
def opsOk : DBState → List Op → Prop
  | _, [] => True
  | s, op :: rest => opOk s op ∧ opsOk (applyOp s op) rest

lemma dbWellFormed_applyOp (s : DBState) (op : Op)
    (hwf : dbWellFormed s) (hok : opOk s op) :
    dbWellFormed (applyOp s op) := by
  cases op with
  | newUser uid n t => exact newUser_preserves uid n t s hwf hok.1 hok.2
  | insUC r => exact insUC_preserves r s hwf hok
  | updUC rid f =>
      exact update_uc_where_preserves (fun x => x.id == rid) f rid s
        (fun x hx => eq_of_beq hx) hok.1 hok.2 hwf
  | delUC rid =>
      exact delete_uc_where_preserves (fun x => x.id == rid) rid s
        (fun x hx => eq_of_beq hx) hwf
  | insCourse c => exact insCourse_preserves c s hwf hok
  | updCourse cid g => exact update_course_preserves cid g s hok.1 hok.2 hwf
  | delCourse cid => exact delete_course_preserves cid s hwf
  | recompute uid => exact recompute_preserves uid s hwf
  | editProfile uid n seed t => exact editProfile_preserves uid n seed t s hwf
  | toggle rid cur uid t =>
      exact update_uc_where_preserves (toggleCond rid uid) (toggleFn cur t)
        rid s (fun x hx => toggleCond_id hx) (fun x => rfl) (fun x => rfl) hwf
  | markCompleted rid cur t =>
      exact update_uc_where_preserves (fun x => x.id == rid) (toggleFn cur t)
        rid s (fun x hx => eq_of_beq hx) (fun x => rfl) (fun x => rfl) hwf

/-- C1 theorem (amended). From any well-formed state (unique primary keys,
counters matching their defining counts), after any sequence of the
repository's insert/update/delete operations in which no `user_courses`
update changes the row's `user_id` and no `courses` update changes the row's
`uploader_id` (`opsOk`), every profile's `enrolled`, `completed` and
`uploads` again equal the counts that define them. The ownership-preserving
restriction is forced by `stats_invariant_counterexample`: the trigger only
recomputes the NEW row's owner, so a reassigning update leaves the old
owner's counters stale. -/
theorem stats_invariant_preserved (s : DBState) (ops : List Op)
    (hwf : dbWellFormed s) (hok : opsOk s ops) :
    statsInvariant (applyOps s ops) := by
  induction ops generalizing s with
  | nil => exact hwf.2.2
  | cons op rest ih =>
      exact ih (applyOp s op) (dbWellFormed_applyOp s op hwf hok.1) hok.2

/-- Counterexample state for C1: users 1 and 2 with consistent counters,
user 1 enrolled in course 20 (uploaded by user 1). -/
def dbCex : DBState :=
  { profiles := [{ user_id := 1, full_name := none, avatar_url := none,
                   role := "user", completed := 0, enrolled := 1, uploads := 1,
                   created_at := 0, updated_at := 0 },
                 { user_id := 2, full_name := none, avatar_url := none,
                   role := "user", completed := 0, enrolled := 0, uploads := 0,
                   created_at := 0, updated_at := 0 }],
    courses := [courseOld],
    user_courses := [ucOld] }

/-- C1 counterexample: the claim fails as stated for updates that reassign
an enrollment's owner. In the consistent state `dbCex`, updating enrollment
10 (owned by user 1) to `user_id = 2` fires the trigger for the NEW owner
only, leaving user 1's `enrolled = 1` while user 1 has zero enrollment rows:
the invariant is broken immediately after a sequence of operations on rows
referencing user 1. -/
theorem stats_invariant_counterexample :
    statsInvariant dbCex ∧
    ¬ statsInvariant (applyOps dbCex
        [Op.updUC 10 (fun r => { r with user_id := 2 })]) := by
  constructor
  · decide
  · decide

instance (s : DBState) : Decidable (ucIdsNodup s) := by
  unfold ucIdsNodup; infer_instance

instance (s : DBState) : Decidable (courseIdsNodup s) := by
  unfold courseIdsNodup; infer_instance

/-- C1 witness: the amended invariant theorem applied to the concrete
well-formed state `dbC2` and a concrete ownership-preserving sequence
(enroll user 1 in course 20 via row 11, then create user 2). -/
theorem stats_invariant_preserved_witness :
    dbWellFormed dbC2 ∧
    opsOk dbC2 [Op.insUC ucNew, Op.newUser 2 none 9] ∧
    statsInvariant (applyOps dbC2 [Op.insUC ucNew, Op.newUser 2 none 9]) := by
  have hwf : dbWellFormed dbC2 := ⟨by decide, by decide, by decide⟩
  have hok : opsOk dbC2 [Op.insUC ucNew, Op.newUser 2 none 9] := by
    refine ⟨?_, ⟨?_, ?_⟩, trivial⟩
    · show ∀ x ∈ dbC2.user_courses, x.id ≠ ucNew.id
      decide
    · show ∀ x ∈ (applyOp dbC2 (Op.insUC ucNew)).user_courses, x.user_id ≠ 2
      decide
    · show ∀ c ∈ (applyOp dbC2 (Op.insUC ucNew)).courses, c.uploader_id ≠ 2
      decide
  exact ⟨hwf, hok, stats_invariant_preserved dbC2 _ hwf hok⟩
